import Mathlib

/-!
Shallow embedding of the markdown-to-HTML core in
src/markdown-editor/MarkdownParser.ts.

The TypeScript classes carry no interesting state beyond what their
constructors fix once, so each method becomes a Lean function with the
receiver's fields passed explicitly:

* the numeric enum `TagType` becomes `Nat` with named members (TS enums
  are numbers at runtime, and casts such as `99 as TagType` are legal);
* `Map<TagType, string>` becomes an association list with `Map.get`
  returning the stored string or JavaScript `undefined`;
* `TagTypeToHtml.getTag` keeps its `tag !== null` guard, where `null`
  and `undefined` are distinct JavaScript values;
* `MarkdownDocument` is its `content` string; `Add` folds the fragments
  on the right of it;
* the chain-of-responsibility built by `ChainOfResponsibilityFactory.Build`
  (header1 → header2 → … → header6 → horizontalRule → paragraph) becomes a
  list of (tag, TagType) pairs traversed in link order with the paragraph
  handler as the terminal case;
* `text.split("\n")` becomes a structural recursion over the character
  list (a single-character separator; the split of the empty string is
  one empty line, matching JavaScript semantics).
-/

namespace MarkdownTS

/-- The TS numeric enum `TagType`; its members are the numbers 0..7 at
runtime, and any number can be cast into the type. -/
abbrev TagType := Nat

def TagType.Paragraph : TagType := 0

def TagType.Header1 : TagType := 1

def TagType.Header2 : TagType := 2

def TagType.Header3 : TagType := 3

def TagType.Header4 : TagType := 4

def TagType.Header5 : TagType := 5

def TagType.Header6 : TagType := 6

def TagType.HorizontalRule : TagType := 7

/-- A JavaScript value as observed by the `tag !== null` test in
`TagTypeToHtml.getTag`: `Map.get` returns the stored string, or
`undefined` (never `null`) when the key is absent. -/
inductive JSVal where
  | undefined : JSVal
  | null : JSVal
  | str : String → JSVal
deriving DecidableEq

/-- Template-literal interpolation `${tag}`: `undefined` renders as the
string "undefined", `null` as "null". -/
def JSVal.interp : JSVal → String
  | .undefined => "undefined"
  | .null => "null"
  | .str s => s

/-- The `tagType` map as filled by `TagTypeToHtml`'s constructor, in
insertion order. -/
def tagTypeMap : List (TagType × String) :=
  [(TagType.Header1, "h1"), (TagType.Header2, "h2"), (TagType.Header3, "h3"),
   (TagType.Header4, "h4"), (TagType.Header5, "h5"), (TagType.Header6, "h6"),
   (TagType.Paragraph, "p"), (TagType.HorizontalRule, "hr")]

/-- `Map.get`: the stored value, or `undefined` when the key is absent. -/
def mapGet (m : List (TagType × String)) (k : TagType) : JSVal :=
  match m.lookup k with
  | some v => JSVal.str v
  | none => JSVal.undefined

/-- `TagTypeToHtml.getTag(tagType, openingTagPattern)`: looks the element
name up and wraps it between the pattern and ">". The guard in the source
is `tag !== null`, although a missed `Map.get` yields `undefined`. -/
def TagTypeToHtml.getTag (tagType : TagType) (openingTagPattern : String) : String :=
  let tag := mapGet tagTypeMap tagType
  if tag ≠ JSVal.null then
    openingTagPattern ++ tag.interp ++ ">"
  else
    openingTagPattern ++ "p>"

/-- `TagTypeToHtml.OpeningTag`. -/
def TagTypeToHtml.OpeningTag (tagType : TagType) : String :=
  TagTypeToHtml.getTag tagType "<"

/-- `TagTypeToHtml.ClosingTag`. -/
def TagTypeToHtml.ClosingTag (tagType : TagType) : String :=
  TagTypeToHtml.getTag tagType "</"

/-- `MarkdownDocument.Add(...content)`: appends each fragment, in call
order, to the `content` buffer (`this.content += element`). -/
def MarkdownDocument.Add (doc : String) (content : List String) : String :=
  content.foldl (fun acc element => acc ++ element) doc

/-- `VisitorBase.Visit(token, markdownDocument)`: adds the opening tag,
the token's current line and the closing tag to the document. -/
def VisitorBase.Visit (tagType : TagType) (currentLine : String) (doc : String) : String :=
  MarkdownDocument.Add doc
    [TagTypeToHtml.OpeningTag tagType, currentLine, TagTypeToHtml.ClosingTag tagType]

/-- `value.startsWith(tag)` on the character lists: the whole tag is
compared literally against the front of the value. -/
def jsStartsWith : List Char → List Char → Bool
  | _, [] => true
  | [], _ :: _ => false
  | c :: cs, p :: ps => c = p && jsStartsWith cs ps

/-- `LineParser.Parse(value, tag)`: `[false, value]` for the empty line;
otherwise `startsWith` decides the match and a match strips the first
`tag.length` characters (`value.substr(tag.length)`; the tags in use are
ASCII, so UTF-16 code units and characters agree). -/
def LineParser.Parse (value : String) (tag : String) : Bool × String :=
  if value = "" then
    (false, value)
  else if jsStartsWith value.data tag.data then
    (true, String.mk (value.data.drop tag.data.length))
  else
    (false, value)

/-- The (tag, TagType) pairs of the `ParseChainHandler`s in the order
`ChainOfResponsibilityFactory.Build` links them: header1, header2,
header3, header4, header5, header6, horizontalRule. The `ParagraphHandler`
is linked after them and is the terminal case of `HandleRequest`. -/
def chainRules : List (String × TagType) :=
  [("# ", TagType.Header1), ("## ", TagType.Header2), ("### ", TagType.Header3),
   ("#### ", TagType.Header4), ("##### ", TagType.Header5), ("###### ", TagType.Header6),
   ("---", TagType.HorizontalRule)]

/-- `Handler.HandleRequest` walking the chain: each `ParseChainHandler`
parses the line against its tag and, on a match, visits with the stripped
remainder as the new current line; otherwise it defers to the next
handler. The final `ParagraphHandler.CanHandle` always visits the
unmodified line as a paragraph. The document is threaded explicitly. -/
def HandleRequest : List (String × TagType) → String → String → String
  | [], currentLine, doc => VisitorBase.Visit TagType.Paragraph currentLine doc
  | (tag, tagType) :: rest, currentLine, doc =>
    let split := LineParser.Parse currentLine tag
    if split.1 then
      VisitorBase.Visit tagType split.2 doc
    else
      HandleRequest rest currentLine doc

/-- `text.split("\n")` on the character list: a single-character
separator, always yielding at least one (possibly empty) line. -/
def splitLines : List Char → List (List Char)
  | [] => [[]]
  | c :: cs =>
    if c = '\n' then
      [] :: splitLines cs
    else
      match splitLines cs with
      | [] => [[c]]
      | l :: ls => (c :: l) :: ls

/-- `Markdown.ToHtml(text)`: split into lines, run every line through the
chain against a fresh document, return the document's content. -/
def Markdown.ToHtml (text : String) : String :=
  let lines : List String := (splitLines text.data).map String.mk
  lines.foldl (fun doc line => HandleRequest chainRules line doc) ""

/-- Modelled from the wording of the specification, for comparison with
`chainRules`: the rule order the spec requires, most specific to most
general, H6 down to H1 and then the horizontal rule. -/
def specRuleOrder : List (String × TagType) :=
  [("###### ", TagType.Header6), ("##### ", TagType.Header5), ("#### ", TagType.Header4),
   ("### ", TagType.Header3), ("## ", TagType.Header2), ("# ", TagType.Header1),
   ("---", TagType.HorizontalRule)]

/-- The number of handlers that examine a line before one of them accepts
it: each `ParseChainHandler` costs one pass, and the terminal
`ParagraphHandler` costs one more when no tag rule matched. -/
def rulesTried : List (String × TagType) → String → Nat
  | [], _ => 1
  | (tag, _) :: rest, line =>
    if (LineParser.Parse line tag).1 then 1 else 1 + rulesTried rest line

/-- The fragment a single line contributes: the chain run against an
empty document. -/
def lineFragment (line : String) : String :=
  HandleRequest chainRules line ""

theorem append_assoc_s (a b c : String) : a ++ b ++ c = a ++ (b ++ c) := by
  apply String.ext
  simp [String.data_append, List.append_assoc]

theorem join_cons (s : String) (l : List String) :
    String.join (s :: l) = s ++ String.join l := by
  apply String.ext
  simp [String.data_append]

theorem join_append (l₁ l₂ : List String) :
    String.join (l₁ ++ l₂) = String.join l₁ ++ String.join l₂ := by
  apply String.ext
  simp [String.data_append]

theorem Visit_eq (tagType : TagType) (line doc : String) :
    VisitorBase.Visit tagType line doc =
      doc ++ (TagTypeToHtml.OpeningTag tagType ++ (line ++ TagTypeToHtml.ClosingTag tagType)) := by
  show ((doc ++ TagTypeToHtml.OpeningTag tagType) ++ line) ++ TagTypeToHtml.ClosingTag tagType = _
  rw [append_assoc_s, append_assoc_s]

theorem Add_join (doc : String) (pieces : List String) :
    MarkdownDocument.Add doc pieces = doc ++ String.join pieces := by
  induction pieces generalizing doc with
  | nil => simp [MarkdownDocument.Add, String.join]
  | cons p ps ih =>
    show MarkdownDocument.Add (doc ++ p) ps = _
    rw [ih, join_cons, append_assoc_s]

theorem HandleRequest_append (rules : List (String × TagType)) (line doc : String) :
    HandleRequest rules line doc = doc ++ HandleRequest rules line "" := by
  induction rules with
  | nil =>
    simp only [HandleRequest]
    rw [Visit_eq, Visit_eq, String.empty_append]
  | cons r rest ih =>
    obtain ⟨tag, tagType⟩ := r
    show (if (LineParser.Parse line tag).1 then _ else _) = doc ++ (if (LineParser.Parse line tag).1 then _ else _)
    by_cases h : (LineParser.Parse line tag).1 = true
    · simp only [h, if_true]
      rw [Visit_eq, Visit_eq, String.empty_append]
    · simp only [Bool.not_eq_true] at h
      simp only [h, if_false]
      exact ih

theorem HandleRequest_shape (rules : List (String × TagType)) (line doc : String) :
    ∃ tagType rem, HandleRequest rules line doc =
      doc ++ (TagTypeToHtml.OpeningTag tagType ++ (rem ++ TagTypeToHtml.ClosingTag tagType)) := by
  induction rules with
  | nil => exact ⟨TagType.Paragraph, line, Visit_eq _ _ _⟩
  | cons r rest ih =>
    obtain ⟨tag, tagType⟩ := r
    show ∃ k rem, (if (LineParser.Parse line tag).1 then _ else _) = _
    by_cases h : (LineParser.Parse line tag).1 = true
    · exact ⟨tagType, (LineParser.Parse line tag).2, by simp only [h, if_true]; exact Visit_eq _ _ _⟩
    · simp only [Bool.not_eq_true] at h
      simpa only [h, if_false] using ih

theorem splitLines_ne_nil (cs : List Char) : splitLines cs ≠ [] := by
  cases cs with
  | nil => simp [splitLines]
  | cons c cs =>
    simp only [splitLines]
    by_cases h : c = '\n'
    · simp [h]
    · simp only [h, if_false]
      cases splitLines cs <;> simp

theorem splitLines_append (xs ys : List Char) :
    splitLines (xs ++ '\n' :: ys) = splitLines xs ++ splitLines ys := by
  induction xs with
  | nil => simp [splitLines]
  | cons c cs ih =>
    by_cases h : c = '\n'
    · simp [splitLines, h, ih]
    · simp only [List.cons_append, splitLines, h, if_false, List.append_eq]
      rw [ih]
      cases hs : splitLines cs with
      | nil => exact absurd hs (splitLines_ne_nil cs)
      | cons l ls => simp

theorem foldl_handle (lines : List String) (doc : String) :
    lines.foldl (fun d line => HandleRequest chainRules line d) doc =
      doc ++ String.join (lines.map lineFragment) := by
  induction lines generalizing doc with
  | nil => simp [String.join]
  | cons l ls ih =>
    simp only [List.foldl_cons, List.map_cons, join_cons]
    rw [ih, HandleRequest_append chainRules l doc, append_assoc_s]
    rfl

theorem ToHtml_join (text : String) :
    Markdown.ToHtml text =
      String.join (((splitLines text.data).map String.mk).map lineFragment) := by
  show List.foldl _ "" _ = _
  rw [foldl_handle, String.empty_append]

theorem jsStartsWith_antichain (l p q : List Char) (hp : jsStartsWith l p = true)
    (hq : jsStartsWith l q = true) :
    (jsStartsWith p q || jsStartsWith q p) = true := by
  induction l generalizing p q with
  | nil =>
    cases p with
    | nil => simp [jsStartsWith]
    | cons a ps => simp [jsStartsWith] at hp
  | cons c ls ih =>
    cases p with
    | nil => simp [jsStartsWith]
    | cons a ps =>
      cases q with
      | nil => simp [jsStartsWith]
      | cons b qs =>
        simp only [jsStartsWith, Bool.and_eq_true, decide_eq_true_eq] at hp hq
        obtain ⟨hca, hps⟩ := hp
        obtain ⟨hcb, hqs⟩ := hq
        subst hca
        subst hcb
        simpa [jsStartsWith] using ih ps qs hps hqs

theorem Parse_true (value tag : String) (h : (LineParser.Parse value tag).1 = true) :
    value ≠ "" ∧ jsStartsWith value.data tag.data = true := by
  unfold LineParser.Parse at h
  by_cases he : value = ""
  · simp [he] at h
  · simp only [he, if_false] at h
    by_cases hs : jsStartsWith value.data tag.data = true
    · exact ⟨he, hs⟩
    · rw [Bool.not_eq_true] at hs
      simp [hs] at h

theorem Parse_excl (line p q : String)
    (hpq : (jsStartsWith p.data q.data || jsStartsWith q.data p.data) = false)
    (hp : (LineParser.Parse line p).1 = true) :
    (LineParser.Parse line q).1 = false := by
  by_contra hcon
  rw [Bool.not_eq_false] at hcon
  obtain ⟨-, hps⟩ := Parse_true line p hp
  obtain ⟨-, hqs⟩ := Parse_true line q hcon
  have hor := jsStartsWith_antichain line.data p.data q.data hps hqs
  rw [hpq] at hor
  exact Bool.false_ne_true hor

theorem chain_order_equiv (line doc : String) :
    HandleRequest chainRules line doc = HandleRequest specRuleOrder line doc := by
  cases h1 : (LineParser.Parse line "# ").1 with
  | true =>
    have e2 := Parse_excl line "# " "## " (by decide) h1
    have e3 := Parse_excl line "# " "### " (by decide) h1
    have e4 := Parse_excl line "# " "#### " (by decide) h1
    have e5 := Parse_excl line "# " "##### " (by decide) h1
    have e6 := Parse_excl line "# " "###### " (by decide) h1
    have e7 := Parse_excl line "# " "---" (by decide) h1
    simp [HandleRequest, chainRules, specRuleOrder, h1, e2, e3, e4, e5, e6, e7]
  | false =>
    cases h2 : (LineParser.Parse line "## ").1 with
    | true =>
      have e3 := Parse_excl line "## " "### " (by decide) h2
      have e4 := Parse_excl line "## " "#### " (by decide) h2
      have e5 := Parse_excl line "## " "##### " (by decide) h2
      have e6 := Parse_excl line "## " "###### " (by decide) h2
      have e7 := Parse_excl line "## " "---" (by decide) h2
      simp [HandleRequest, chainRules, specRuleOrder, h1, h2, e3, e4, e5, e6, e7]
    | false =>
      cases h3 : (LineParser.Parse line "### ").1 with
      | true =>
        have e4 := Parse_excl line "### " "#### " (by decide) h3
        have e5 := Parse_excl line "### " "##### " (by decide) h3
        have e6 := Parse_excl line "### " "###### " (by decide) h3
        have e7 := Parse_excl line "### " "---" (by decide) h3
        simp [HandleRequest, chainRules, specRuleOrder, h1, h2, h3, e4, e5, e6, e7]
      | false =>
        cases h4 : (LineParser.Parse line "#### ").1 with
        | true =>
          have e5 := Parse_excl line "#### " "##### " (by decide) h4
          have e6 := Parse_excl line "#### " "###### " (by decide) h4
          have e7 := Parse_excl line "#### " "---" (by decide) h4
          simp [HandleRequest, chainRules, specRuleOrder, h1, h2, h3, h4, e5, e6, e7]
        | false =>
          cases h5 : (LineParser.Parse line "##### ").1 with
          | true =>
            have e6 := Parse_excl line "##### " "###### " (by decide) h5
            have e7 := Parse_excl line "##### " "---" (by decide) h5
            simp [HandleRequest, chainRules, specRuleOrder, h1, h2, h3, h4, h5, e6, e7]
          | false =>
            cases h6 : (LineParser.Parse line "###### ").1 with
            | true =>
              have e7 := Parse_excl line "###### " "---" (by decide) h6
              simp [HandleRequest, chainRules, specRuleOrder, h1, h2, h3, h4, h5, h6, e7]
            | false =>
              cases h7 : (LineParser.Parse line "---").1 with
              | true =>
                simp [HandleRequest, chainRules, specRuleOrder, h1, h2, h3, h4, h5, h6, h7]
              | false =>
                simp [HandleRequest, chainRules, specRuleOrder, h1, h2, h3, h4, h5, h6, h7]

theorem rulesTried_le (rules : List (String × TagType)) (line : String) :
    rulesTried rules line ≤ rules.length + 1 := by
  induction rules with
  | nil => simp [rulesTried]
  | cons r rest ih =>
    obtain ⟨tag, k⟩ := r
    simp only [rulesTried, List.length_cons]
    by_cases h : (LineParser.Parse line tag).1 = true
    · simp [h]
    · rw [Bool.not_eq_true] at h
      rw [if_neg (by simp [h])]
      have hr := ih
      omega

/-- C1: the spec claims the classification chain tries its rules in the
order H6, H5, H4, H3, H2, H1, horizontal rule, then paragraph; the chain
built by `ChainOfResponsibilityFactory.Build` in fact starts with the H1
rule ("# ") and runs shortest first, so the claimed order is not the one
in the code. -/
theorem C1_counterexample :
    chainRules.head? = some ("# ", TagType.Header1) ∧ chainRules ≠ specRuleOrder := by
  decide

/-- C1 (amended): the chain tries its prefix rules in the order H1 ("# "),
H2, H3, H4, H5, H6, horizontal rule ("---"), with the default paragraph
rule last; because no rule prefix is a prefix of another rule prefix,
every line is classified exactly as under the most-specific-first order
the spec states. -/
theorem C1_rule_order :
    chainRules =
      [("# ", TagType.Header1), ("## ", TagType.Header2), ("### ", TagType.Header3),
       ("#### ", TagType.Header4), ("##### ", TagType.Header5), ("###### ", TagType.Header6),
       ("---", TagType.HorizontalRule)] ∧
    (∀ line doc, HandleRequest chainRules line doc = HandleRequest specRuleOrder line doc) ∧
    (∀ line doc, (∀ r ∈ chainRules, (LineParser.Parse line r.1).1 = false) →
      HandleRequest chainRules line doc = VisitorBase.Visit TagType.Paragraph line doc) := by
  refine ⟨rfl, chain_order_equiv, ?_⟩
  intro line doc h
  have h1 := h ("# ", TagType.Header1) (by simp [chainRules])
  have h2 := h ("## ", TagType.Header2) (by simp [chainRules])
  have h3 := h ("### ", TagType.Header3) (by simp [chainRules])
  have h4 := h ("#### ", TagType.Header4) (by simp [chainRules])
  have h5 := h ("##### ", TagType.Header5) (by simp [chainRules])
  have h6 := h ("###### ", TagType.Header6) (by simp [chainRules])
  have h7 := h ("---", TagType.HorizontalRule) (by simp [chainRules])
  simp [HandleRequest, chainRules, h1, h2, h3, h4, h5, h6, h7]

/-- Witness for the amended C1 at a concrete line no rule matches. -/
theorem C1_rule_order_witness :
    HandleRequest chainRules "plain" "" = VisitorBase.Visit TagType.Paragraph "plain" "" :=
  C1_rule_order.2.2 "plain" "" (by decide)

/-- C2: the spec claims a kind absent from the mapping falls back to the
element name "p", so that OpeningTag gives "&lt;p&gt;"; in the code the guard
`tag !== null` is also satisfied by the `undefined` that `Map.get`
returns for an absent key, so the intended fallback line is unreachable
and the rendered element name is "undefined". Evaluated at the failing
input: the number 8 cast to TagType, which has no map entry. -/
theorem C2_unmapped_kind :
    mapGet tagTypeMap 8 = JSVal.undefined ∧
    TagTypeToHtml.OpeningTag 8 = "<undefined>" ∧
    TagTypeToHtml.ClosingTag 8 = "</undefined>" := by
  decide

/-- C3: classifying any line appends exactly one rendered fragment of
the shape opening tag ++ remainder ++ matching closing tag to the
document, and the empty line appends exactly "&lt;p&gt;" ++ "" ++ "&lt;/p&gt;". -/
theorem C3_single_fragment (line doc : String) :
    (∃ tagType rem, HandleRequest chainRules line doc =
      doc ++ (TagTypeToHtml.OpeningTag tagType ++ (rem ++ TagTypeToHtml.ClosingTag tagType))) ∧
    HandleRequest chainRules "" doc = doc ++ ("<p>" ++ ("" ++ "</p>")) := by
  refine ⟨HandleRequest_shape chainRules line doc, ?_⟩
  have hp : HandleRequest chainRules "" doc = VisitorBase.Visit TagType.Paragraph "" doc := rfl
  rw [hp, Visit_eq]
  rfl

/-- C4: the line matcher returns (false, line) for the empty line;
otherwise the match is exactly startsWith, a match strips the first
tag-length characters, and a miss returns the line unchanged. -/
theorem C4_line_matcher (value tag : String) :
    (value = "" → LineParser.Parse value tag = (false, value)) ∧
    (value ≠ "" →
      (LineParser.Parse value tag).1 = jsStartsWith value.data tag.data ∧
      (jsStartsWith value.data tag.data = true →
        (LineParser.Parse value tag).2 = String.mk (value.data.drop tag.data.length)) ∧
      (jsStartsWith value.data tag.data = false →
        (LineParser.Parse value tag).2 = value)) := by
  constructor
  · intro h
    simp [LineParser.Parse, h]
  · intro h
    refine ⟨?_, ?_, ?_⟩
    · by_cases hs : jsStartsWith value.data tag.data = true
      · simp [LineParser.Parse, h, hs]
      · rw [Bool.not_eq_true] at hs
        simp [LineParser.Parse, h, hs]
    · intro hs
      simp [LineParser.Parse, h, hs]
    · intro hs
      simp [LineParser.Parse, h, hs]

/-- Witness for C4: the empty line never matches, and "### Title"
matched against "### " leaves the remainder "Title". -/
theorem C4_line_matcher_witness :
    LineParser.Parse "" "# " = (false, "") ∧ (LineParser.Parse "### Title" "### ").2 = "Title" := by
  constructor
  · exact (C4_line_matcher "" "# ").1 rfl
  · have h := ((C4_line_matcher "### Title" "### ").2 (by decide)).2.1 (by decide)
    rw [h]
    decide

/-- C5: "### Title" renders as an H3 header, not as an H1 header with
leftover hash marks, although shorter header rules are tried first. -/
theorem C5_specificity :
    Markdown.ToHtml "### Title" = "<h3>Title</h3>" ∧
    Markdown.ToHtml "### Title" ≠ "<h1>## Title</h1>" := by
  decide

/-- C6: a header marker without its trailing space matches no header rule
and falls through to the paragraph rule. -/
theorem C6_no_space_fallback :
    Markdown.ToHtml "##NoSpace" = "<p>##NoSpace</p>" := by
  decide

/-- C7: "---" renders as "&lt;hr&gt;&lt;/hr&gt;": the rule consumes the whole
matched text, the remainder is empty, and the closing tag is the
explicit "&lt;/hr&gt;". -/
theorem C7_horizontal_rule :
    Markdown.ToHtml "---" = "<hr>" ++ "" ++ "</hr>" ∧
    (LineParser.Parse "---" "---").2 = "" ∧
    TagTypeToHtml.ClosingTag TagType.HorizontalRule = "</hr>" := by
  decide

/-- C8: fragments are concatenated in input-line order with no separator,
and the document returns all added fragments joined in insertion order. -/
theorem C8_concat_order :
    Markdown.ToHtml "# A\nplain\n## B" = "<h1>A</h1><p>plain</p><h2>B</h2>" ∧
    ∀ doc pieces, MarkdownDocument.Add doc pieces = doc ++ String.join pieces :=
  ⟨by decide, Add_join⟩

/-- C9: conversion is total and single-pass: for every input the output
is the join of the per-line fragments in line order, and each line is
offered to at most the seven tag handlers plus the terminal paragraph
handler. -/
theorem C9_total :
    (∀ text, Markdown.ToHtml text =
      String.join (((splitLines text.data).map String.mk).map lineFragment)) ∧
    (∀ line, rulesTried chainRules line ≤ chainRules.length + 1) :=
  ⟨ToHtml_join, fun line => rulesTried_le chainRules line⟩

/-- C10: ToHtml distributes over a newline: converting a ++ "\n" ++ b is
converting a and b separately and concatenating, because splitting on
the newline character distributes over the concatenation. -/
theorem C10_line_homomorphism (a b : String) :
    Markdown.ToHtml (a ++ "\n" ++ b) = Markdown.ToHtml a ++ Markdown.ToHtml b := by
  rw [ToHtml_join, ToHtml_join, ToHtml_join]
  have hnl : ("\n" : String).data = ['\n'] := rfl
  have hdata : (a ++ "\n" ++ b).data = a.data ++ '\n' :: b.data := by
    simp [String.data_append, hnl]
  rw [hdata, splitLines_append, List.map_append, List.map_append, join_append]

end MarkdownTS
